import Mathlib

/-!
Verification development for the pg_smgrstat storage-statistics extension.

The definitions below are a shallow embedding of the C sources under src/:
  * smgr_stats_welford.h   — Welford online mean/variance accumulator
  * smgr_stats_hist.h/.c   — log2 latency histogram and percentile query
  * smgr_stats_seq.c       — per-backend sequential-run detector
  * smgr_stats_store.c/.h  — shared entry table, snapshot/reset, metadata
                             lookup, relfile-association ring buffer
  * smgr_stats_metadata.c  — deferred metadata resolution protocol
  * smgr_stats_link.c      — smgr interception handlers (writev path)

Modelling conventions:
  * C unsigned 64-bit counters are Nat with explicit reduction modulo 2^64
    (`U64`) at each update, mirroring unsigned wrap-around.
  * BlockNumber (uint32) arithmetic is reduced modulo 2^32 (`U32`);
    InvalidBlockNumber is 0xFFFFFFFF.
  * C `double` is modelled as ℚ (the claims under study do not depend on
    floating-point rounding).
  * TimestampTz (int64, microseconds) is modelled as Int; its division by
    USECS_PER_SEC uses Int division, which truncates toward zero for the
    non-negative timestamps that occur.
  * NameData strings are modelled as String, the relkind char as its byte
    value (Nat).
  * The shared dshash table is modelled as a list of entries; the
    per-backend pattern cache is an association list.  Lock acquisition and
    release delimit the atomic steps that the step functions below embody.
-/

/-- 2^64, the modulus of C uint64 arithmetic. -/
def U64 : Nat := 18446744073709551616

/-- 2^32, the modulus of C uint32 (BlockNumber) arithmetic. -/
def U32 : Nat := 4294967296

/-- InvalidBlockNumber (0xFFFFFFFF). -/
def invalidBlockNumber : Nat := 4294967295

/-- USECS_PER_SEC. -/
def usecsPerSec : Int := 1000000

/-- SmgrStatsKey: (tablespace oid, database oid, relation number, fork number),
from smgr_stats_store.h.  RelFileLocator is inlined.  ForkNumber is a C int. -/
structure SmgrStatsKey where
  spcOid : Nat
  dbOid : Nat
  relNumber : Nat
  forknum : Int
deriving DecidableEq, Repr, Inhabited

/-- SmgrStatsWelford from smgr_stats_welford.h.  `count` is uint64, `mean`
and `m2` are doubles (modelled as ℚ). -/
structure SmgrStatsWelford where
  count : Nat
  mean : ℚ
  m2 : ℚ
deriving DecidableEq, Repr, Inhabited

/-- smgr_stats_welford_record (smgr_stats_welford.h lines 18-24). -/
def smgr_stats_welford_record (w : SmgrStatsWelford) (value : ℚ) : SmgrStatsWelford :=
  let count := (w.count + 1) % U64
  let delta := value - w.mean
  let mean := w.mean + delta / (count : ℚ)
  let delta2 := value - mean
  { count := count, mean := mean, m2 := w.m2 + delta * delta2 }

/-- smgr_stats_welford_reset (smgr_stats_welford.h lines 26-30). -/
def smgr_stats_welford_reset : SmgrStatsWelford :=
  { count := 0, mean := 0, m2 := 0 }

/-- SMGR_STATS_HIST_BINS = 32. -/
def smgrStatsHistBins : Nat := 32

/-- SmgrStatsTimingHist from smgr_stats_hist.h: 32 uint64 bins plus count,
cumulative sum, min (sentinel PG_UINT64_MAX when empty) and max. -/
structure SmgrStatsTimingHist where
  bins : Fin 32 → Nat
  count : Nat
  total_us : Nat
  min_us : Nat
  max_us : Nat

/-- Bin selection of smgr_stats_hist_record: bin 0 for a zero value,
otherwise min(floor(log2 v) + 1, 31); pg_leftmost_one_pos64 v = floor(log2 v)
= Nat.log2 v for v > 0. -/
def smgr_stats_hist_bin (value_us : Nat) : Fin 32 :=
  if value_us = 0 then ⟨0, by omega⟩
  else ⟨min (Nat.log2 value_us + 1) 31, by omega⟩

/-- smgr_stats_hist_record (smgr_stats_hist.h lines 32-48). -/
def smgr_stats_hist_record (hist : SmgrStatsTimingHist) (value_us : Nat) :
    SmgrStatsTimingHist :=
  let bin := smgr_stats_hist_bin value_us
  { bins := Function.update hist.bins bin ((hist.bins bin + 1) % U64)
    count := (hist.count + 1) % U64
    total_us := (hist.total_us + value_us) % U64
    min_us := if value_us < hist.min_us then value_us else hist.min_us
    max_us := if value_us > hist.max_us then value_us else hist.max_us }

/-- smgr_stats_hist_reset (smgr_stats_hist.h lines 51-57): zero everything,
min back to the PG_UINT64_MAX sentinel. -/
def smgr_stats_hist_reset : SmgrStatsTimingHist :=
  { bins := fun _ => 0
    count := 0
    total_us := 0
    min_us := U64 - 1
    max_us := 0 }

/-- Fold of smgr_stats_hist_record over a sequence of observations, starting
from a given histogram state. -/
def smgr_stats_hist_record_all (hist : SmgrStatsTimingHist) (vs : List Nat) :
    SmgrStatsTimingHist :=
  vs.foldl smgr_stats_hist_record hist

/-- SmgrStatsSeqResult from smgr_stats_seq.h. -/
structure SmgrStatsSeqResult where
  is_sequential : Bool
  completed_run : Nat
deriving DecidableEq, Repr, Inhabited

/-- SmgrStatsLocalPattern from smgr_stats_seq.c: per-key last block and
current run length for each direction.  Block numbers are uint32 (Invalid =
0xFFFFFFFF), run lengths uint64. -/
structure SmgrStatsLocalPattern where
  last_read_block : Nat
  last_write_block : Nat
  current_read_run : Nat
  current_write_run : Nat
deriving DecidableEq, Repr, Inhabited

/-- The freshly inserted pattern (smgr_stats_seq.c lines 37-43). -/
def freshLocalPattern : SmgrStatsLocalPattern :=
  { last_read_block := invalidBlockNumber
    last_write_block := invalidBlockNumber
    current_read_run := 0
    current_write_run := 0 }

/-- The backend-local pattern cache, modelled as an association list (the C
code uses a local HTAB keyed by SmgrStatsKey). -/
abbrev SmgrStatsPatternCache : Type := List (SmgrStatsKey × SmgrStatsLocalPattern)

/-- Lookup in the pattern cache (hash_search with HASH_FIND semantics). -/
def patternCacheLookup (cache : SmgrStatsPatternCache) (key : SmgrStatsKey) :
    Option SmgrStatsLocalPattern :=
  (List.find? (fun p => decide (p.1 = key)) cache).map Prod.snd

/-- Store-back into the pattern cache: replace the entry for `key` if
present, insert it otherwise (hash_search with HASH_ENTER semantics). -/
def patternCacheStore (cache : SmgrStatsPatternCache) (key : SmgrStatsKey)
    (pat : SmgrStatsLocalPattern) : SmgrStatsPatternCache :=
  match patternCacheLookup cache key with
  | some _ => cache.map (fun p => if p.1 = key then (key, pat) else p)
  | none => cache ++ [(key, pat)]

/-- smgr_stats_check_sequential (smgr_stats_seq.c lines 31-67).  The HTAB
find-or-create plus the in-place mutation of the found pattern are modelled
as lookup (defaulting to the fresh pattern) followed by a store-back.
`blocknum == *last_block + 1` and `*last_block = blocknum + nblocks - 1` are
uint32 operations, hence the reductions modulo `U32`; `*current_run +=
nblocks` is a uint64 operation. -/
def smgr_stats_check_sequential (cache : SmgrStatsPatternCache)
    (key : SmgrStatsKey) (blocknum nblocks : Nat) (is_read : Bool) :
    SmgrStatsSeqResult × SmgrStatsPatternCache :=
  let pat := (patternCacheLookup cache key).getD freshLocalPattern
  let last_block := if is_read then pat.last_read_block else pat.last_write_block
  let current_run := if is_read then pat.current_read_run else pat.current_write_run
  let seqHit := last_block ≠ invalidBlockNumber ∧ blocknum = (last_block + 1) % U32
  let result : SmgrStatsSeqResult :=
    if seqHit then { is_sequential := true, completed_run := 0 }
    else { is_sequential := false, completed_run := current_run }
  let run2 := if seqHit then (current_run + nblocks) % U64 else nblocks
  let newLast := (blocknum + nblocks + (U32 - 1)) % U32
  let pat2 :=
    if is_read then
      { pat with last_read_block := newLast, current_read_run := run2 }
    else
      { pat with last_write_block := newLast, current_write_run := run2 }
  (result, patternCacheStore cache key pat2)

/-- SmgrStatsEntryMeta from smgr_stats_store.h (relkind as its byte value,
NameData as String). -/
structure SmgrStatsEntryMeta where
  reloid : Nat
  main_reloid : Nat
  relkind : Nat
  relname : String
  nspname : String
  metadata_valid : Bool
deriving DecidableEq, Repr, Inhabited

/-- The zero-initialized, invalid metadata state (memset to zero followed by
the explicit invalid-field initialization in smgr_stats_lookup_metadata /
smgr_stats_get_entry). -/
def invalidEntryMeta : SmgrStatsEntryMeta :=
  { reloid := 0, main_reloid := 0, relkind := 0, relname := "", nspname := ""
    metadata_valid := false }

/-- SmgrStatsBurstiness from smgr_stats_store.h: inter-arrival-time Welford
plus the last-operation timestamp (which is not reset between periods). -/
structure SmgrStatsBurstiness where
  iat : SmgrStatsWelford
  last_op_time : Int
deriving DecidableEq, Repr, Inhabited

/-- SmgrStatsEntry from smgr_stats_store.h. -/
structure SmgrStatsEntry where
  key : SmgrStatsKey
  meta : SmgrStatsEntryMeta
  reads : Nat
  read_blocks : Nat
  writes : Nat
  write_blocks : Nat
  extends_ : Nat  -- `extends` in C; renamed because `extends` is a Lean keyword
  extend_blocks : Nat
  truncates : Nat
  fsyncs : Nat
  read_timing : SmgrStatsTimingHist
  write_timing : SmgrStatsTimingHist
  read_burst : SmgrStatsBurstiness
  write_burst : SmgrStatsBurstiness
  sequential_reads : Nat
  random_reads : Nat
  sequential_writes : Nat
  random_writes : Nat
  read_runs : SmgrStatsWelford
  write_runs : SmgrStatsWelford
  active_seconds : Nat
  last_active_second : Int
  first_access : Int
  last_access : Int

/-- smgr_stats_entry_reset (smgr_stats_store.c lines 75-99): zero all period
counters, histograms, classification counters and run/IAT accumulators;
preserve the key, the metadata block, last_active_second and the per-
direction last_op_time. -/
def smgr_stats_entry_reset (entry : SmgrStatsEntry) : SmgrStatsEntry :=
  { entry with
    reads := 0
    read_blocks := 0
    writes := 0
    write_blocks := 0
    extends_ := 0
    extend_blocks := 0
    truncates := 0
    fsyncs := 0
    read_timing := smgr_stats_hist_reset
    write_timing := smgr_stats_hist_reset
    read_burst := { entry.read_burst with iat := smgr_stats_welford_reset }
    write_burst := { entry.write_burst with iat := smgr_stats_welford_reset }
    sequential_reads := 0
    random_reads := 0
    sequential_writes := 0
    random_writes := 0
    read_runs := smgr_stats_welford_reset
    write_runs := smgr_stats_welford_reset
    active_seconds := 0
    first_access := 0
    last_access := 0 }

/-- The state of a newly created entry, as initialized by the `!*found`
branch of smgr_stats_get_entry (smgr_stats_store.c lines 101-117):
entry_reset values plus zeroed last_active_second, last_op_time fields and
invalid metadata. -/
def smgr_stats_new_entry (key : SmgrStatsKey) : SmgrStatsEntry :=
  { key := key
    meta := invalidEntryMeta
    reads := 0
    read_blocks := 0
    writes := 0
    write_blocks := 0
    extends_ := 0
    extend_blocks := 0
    truncates := 0
    fsyncs := 0
    read_timing := smgr_stats_hist_reset
    write_timing := smgr_stats_hist_reset
    read_burst := { iat := smgr_stats_welford_reset, last_op_time := 0 }
    write_burst := { iat := smgr_stats_welford_reset, last_op_time := 0 }
    sequential_reads := 0
    random_reads := 0
    sequential_writes := 0
    random_writes := 0
    read_runs := smgr_stats_welford_reset
    write_runs := smgr_stats_welford_reset
    active_seconds := 0
    last_active_second := 0
    first_access := 0
    last_access := 0 }

/-- The shared statistics store: the dshash table (modelled as a list of
entries) together with the control block's bucket counter
(smgr_stats_store.c lines 35-49; the bucket counter is a uint64 advanced
once per destructive snapshot, so its wrap-around is unreachable and it is
modelled as a plain Nat).  stats_control_init starts the counter at 1. -/
structure SmgrStatsStore where
  entries : List SmgrStatsEntry
  bucket_id : Nat

/-- snapshot_entries (smgr_stats_store.c lines 123-158): copy every entry
with activity this period (first_access ≠ 0), and when `reset` is set,
reset each copied entry in place.  The copies are taken before the reset. -/
def snapshot_entries (s : SmgrStatsStore) (reset : Bool) :
    List SmgrStatsEntry × SmgrStatsStore :=
  (s.entries.filter (fun e => e.first_access ≠ 0),
   if reset then
     { s with entries :=
        s.entries.map (fun e =>
          if e.first_access ≠ 0 then smgr_stats_entry_reset e else e) }
   else s)

/-- smgr_stats_snapshot (smgr_stats_store.c lines 160-164): non-destructive
snapshot reporting the currently in-progress bucket id. -/
def smgr_stats_snapshot (s : SmgrStatsStore) :
    List SmgrStatsEntry × Nat × SmgrStatsStore :=
  let (snap, s2) := snapshot_entries s false
  (snap, s.bucket_id, s2)

/-- smgr_stats_snapshot_and_reset (smgr_stats_store.c lines 166-170):
destructive snapshot; pg_atomic_fetch_add_u64 returns the pre-increment
bucket id (the bucket just closed) and leaves the counter incremented. -/
def smgr_stats_snapshot_and_reset (s : SmgrStatsStore) :
    List SmgrStatsEntry × Nat × SmgrStatsStore :=
  let (snap, s2) := snapshot_entries { s with bucket_id := s.bucket_id + 1 } true
  (snap, s.bucket_id, s2)

/-- A catalog identity as produced by the host's catalog lookup (the
RelidByRelfilenumber / syscache tail of smgr_stats_lookup_metadata, an
external collaborator here abstracted into an oracle). -/
structure SmgrStatsCatalogInfo where
  reloid : Nat
  main_reloid : Nat
  relkind : Nat
  relname : String
  nspname : String
deriving DecidableEq, Repr, Inhabited

/-- The backend execution context consulted by the refusal checks of
smgr_stats_lookup_metadata: MyDatabaseId, IsTransactionState(),
CritSectionCount, and the catalog oracle. -/
structure SmgrStatsLookupCtx where
  myDatabaseId : Nat
  inTransaction : Bool
  critSectionCount : Nat
  catalog : SmgrStatsKey → Option SmgrStatsCatalogInfo

/-- Modelled from the spec: `smgr_stats_is_temp_aggregate_key` and
`smgr_stats_temp_aggregate_key` are referenced from smgr_stats_link.c and
smgr_stats_store.c but their definitions are not among the sources under
src/.  Per the spec's temp-object tracking mode
"aggregate-into-one-bucket-per-database", the synthetic key identifies only
a database, carrying no real relation: it is modelled here with a zero
(invalid) tablespace oid and the zero/invalid relation-number sentinel. -/
def smgr_stats_temp_aggregate_key (dbOid : Nat) : SmgrStatsKey :=
  { spcOid := 0, dbOid := dbOid, relNumber := 0, forknum := 0 }

/-- Modelled from the spec: recognizer for the synthetic per-database
temp-aggregate key (see `smgr_stats_temp_aggregate_key`). -/
def smgr_stats_is_temp_aggregate_key (key : SmgrStatsKey) : Bool :=
  key.spcOid = 0 ∧ key.relNumber = 0

/-- The synthetic metadata installed for the temp-aggregate key
(smgr_stats_store.c lines 233-240); relkind 'T' is byte 84. -/
def tempAggregateMeta : SmgrStatsEntryMeta :=
  { reloid := 0, main_reloid := 0, relkind := 84
    relname := "<temporary tables>", nspname := "pg_temp"
    metadata_valid := true }

/-- smgr_stats_lookup_metadata (smgr_stats_store.c lines 220-349): pure
catalog lookup that touches no entry.  Returns the C function's boolean
result together with the `*meta_out` output (initialized to the invalid
state, overwritten only on success).  The temp-aggregate branch precedes
every refusal check; the refusal checks are, in order: a zero/invalid
relation number, no database connection (MyDatabaseId invalid), not inside
a transaction, and a positive critical-section count.  The catalog tail
(RelidByRelfilenumber, the direct pg_class scan and the syscache lookups)
is abstracted into `ctx.catalog`; on success the function fills the
metadata and sets metadata_valid = true. -/
def smgr_stats_lookup_metadata (ctx : SmgrStatsLookupCtx) (key : SmgrStatsKey) :
    Bool × SmgrStatsEntryMeta :=
  if smgr_stats_is_temp_aggregate_key key then
    (true, tempAggregateMeta)
  else if key.relNumber = 0 then
    (false, invalidEntryMeta)
  else if ctx.myDatabaseId = 0 then
    (false, invalidEntryMeta)
  else if ¬ctx.inTransaction then
    (false, invalidEntryMeta)
  else if ctx.critSectionCount > 0 then
    (false, invalidEntryMeta)
  else
    match ctx.catalog key with
    | none => (false, invalidEntryMeta)
    | some info =>
        (true,
         { reloid := info.reloid
           main_reloid := info.main_reloid
           relkind := info.relkind
           relname := info.relname
           nspname := info.nspname
           metadata_valid := true })

/-- smgr_stats_resolve_metadata (smgr_stats_store.c lines 359-373), the
collector's inline resolution: skip (reporting success) if metadata is
already valid, otherwise perform the lookup and copy the resolved metadata
into the entry only on success. -/
def smgr_stats_resolve_metadata (ctx : SmgrStatsLookupCtx)
    (entry : SmgrStatsEntry) (key : SmgrStatsKey) : SmgrStatsEntry × Bool :=
  if entry.meta.metadata_valid then (entry, true)
  else
    let (ok, meta) := smgr_stats_lookup_metadata ctx key
    if ok then ({ entry with meta := meta }, true) else (entry, false)

/-- The locked re-check-and-apply step of the per-backend pending-list
drain (smgr_stats_metadata.c lines 74-81): after the unlocked catalog
lookup produced `meta`, the entry is re-acquired and the resolved metadata
is installed only if the entry is still unresolved. -/
def smgr_stats_apply_pending_metadata (entry : SmgrStatsEntry)
    (meta : SmgrStatsEntryMeta) : SmgrStatsEntry :=
  if entry.meta.metadata_valid then entry else { entry with meta := meta }

/-- The per-sibling-fork propagation step of update_entry_and_forks
(smgr_stats_metadata.c lines 105-114): a sibling fork entry receives the
resolved metadata only if it is still unresolved. -/
def smgr_stats_propagate_fork_metadata (entry : SmgrStatsEntry)
    (meta : SmgrStatsEntryMeta) : SmgrStatsEntry :=
  if entry.meta.metadata_valid then entry else { entry with meta := meta }

/-- The per-entry apply step of the bulk new-database path
(apply_collected_metadata, smgr_stats_metadata.c lines 238-256, combined
with update_entry_and_forks lines 100-115): the primary-fork entry is
updated only if still unresolved, in which case the metadata is also
propagated to the sibling-fork entries that are themselves unresolved. -/
def smgr_stats_apply_collected_metadata (entry : SmgrStatsEntry)
    (forks : List SmgrStatsEntry) (meta : SmgrStatsEntryMeta) :
    SmgrStatsEntry × List SmgrStatsEntry :=
  if entry.meta.metadata_valid then (entry, forks)
  else
    ({ entry with meta := meta },
     forks.map (fun f => smgr_stats_propagate_fork_metadata f meta))

/-- RELFILE_ASSOC_QUEUE_SIZE (smgr_stats_store.c line 26). -/
def relfileAssocQueueSize : Nat := 1024

/-- SmgrStatsRelfileAssoc from smgr_stats_store.h, with the two
RelFileLocator values inlined.  Metadata is intentionally left unresolved
at enqueue time (reloid 0, empty names). -/
structure SmgrStatsRelfileAssoc where
  old_spcOid : Nat
  old_dbOid : Nat
  old_relNumber : Nat
  new_spcOid : Nat
  new_dbOid : Nat
  new_relNumber : Nat
  forknum : Int
  is_redo : Bool
  reloid : Nat
  relname : String
  nspname : String
deriving DecidableEq, Repr, Inhabited

/-- SmgrStatsRelfileQueue (smgr_stats_store.c lines 29-33): the head and
tail are uint64 counters advanced by at most one per operation, so their
wrap-around is unreachable and they are modelled as plain Nats; the backing
array is modelled as a function from slot numbers (reduced modulo 1024 on
access, mirroring the `& (RELFILE_ASSOC_QUEUE_SIZE - 1)` masking). -/
structure SmgrStatsRelfileQueue where
  head : Nat
  tail : Nat
  entries : Nat → SmgrStatsRelfileAssoc

/-- stats_control_init's queue state (smgr_stats_store.c lines 43-49):
head = tail = 0 in freshly zeroed shared memory. -/
def initRelfileQueue : SmgrStatsRelfileQueue :=
  { head := 0, tail := 0, entries := fun _ => default }

/-- smgr_stats_queue_relfile_assoc (smgr_stats_store.c lines 375-418),
sequentialized: compute next = (head + 1) & 1023; if it collides with
tail & 1023 the queue is full and the event is dropped (the state is
returned unchanged, the C code only emits a DEBUG1 diagnostic); otherwise
the slot head & 1023 is claimed and filled and head is advanced by one. -/
def smgr_stats_queue_relfile_assoc (q : SmgrStatsRelfileQueue)
    (ev : SmgrStatsRelfileAssoc) : SmgrStatsRelfileQueue :=
  let next := (q.head + 1) % relfileAssocQueueSize
  if next = q.tail % relfileAssocQueueSize then q
  else
    { head := q.head + 1
      tail := q.tail
      entries := Function.update q.entries (q.head % relfileAssocQueueSize) ev }

/-- Enqueue each event of a list in order, with no intervening drain. -/
def smgr_stats_queue_all (q : SmgrStatsRelfileQueue)
    (evs : List SmgrStatsRelfileAssoc) : SmgrStatsRelfileQueue :=
  evs.foldl smgr_stats_queue_relfile_assoc q

/-- smgr_stats_drain_relfile_queue (smgr_stats_store.c lines 420-450):
n = (head - tail) & 1023 with a defensive n = 0 when head < tail; when
n = 0 the function returns early with no events and does not move tail;
otherwise it copies the n entries starting at slot tail & 1023 in order
and advances tail to head in one store. -/
def smgr_stats_drain_relfile_queue (q : SmgrStatsRelfileQueue) :
    List SmgrStatsRelfileAssoc × SmgrStatsRelfileQueue :=
  let n := if q.head < q.tail then 0 else (q.head - q.tail) % relfileAssocQueueSize
  if n = 0 then ([], q)
  else
    ((List.range n).map (fun i => q.entries ((q.tail + i) % relfileAssocQueueSize)),
     { q with tail := q.head })

/-- Outcome of the smgr_stats_hist_percentile SQL function: an ereport
(contract violation), a NULL result (no data), a latency lower bound, or
the pg_unreachable() fall-through. -/
inductive SmgrStatsPercentileOutcome where
  | raised : SmgrStatsPercentileOutcome
  | noData : SmgrStatsPercentileOutcome
  | value : ℚ → SmgrStatsPercentileOutcome
  | fellThrough : SmgrStatsPercentileOutcome
deriving DecidableEq, Repr

/-- The accumulation loop of smgr_stats_hist_percentile (smgr_stats_hist.c
lines 58-67): scan the bins in order, accumulating, and return the lower
bound of the first bin whose cumulative count reaches the target — 0 for
bin 0 and 2^(i-1) for bin i ≥ 1 (pow(2.0, i - 1) is exact for i ≤ 31). -/
def smgr_stats_percentile_scan : List Int → Nat → Int → Int →
    SmgrStatsPercentileOutcome
  | [], _, _, _ => .fellThrough
  | b :: rest, i, cumulative, target =>
      let cum2 := cumulative + b
      if cum2 ≥ target then
        .value (if i = 0 then 0 else (2 : ℚ) ^ (i - 1))
      else smgr_stats_percentile_scan rest (i + 1) cum2 target

/-- smgr_stats_hist_percentile (smgr_stats_hist.c lines 23-70): reject a
fraction outside [0,1]; deconstruct the bigint[] argument and reject a
length other than 32; with a zero total return NULL; otherwise compute
target = ceil(total * pct), bumped to 1 when it is 0, and scan.  The
float8 fraction is modelled as ℚ. -/
def smgr_stats_hist_percentile (hist_arr : List Int) (pct : ℚ) :
    SmgrStatsPercentileOutcome :=
  if pct < 0 ∨ pct > 1 then .raised
  else if hist_arr.length ≠ 32 then .raised
  else
    let total := hist_arr.sum
    if total = 0 then .noData
    else
      let target0 := Int.ceil ((total : ℚ) * pct)
      let target := if target0 = 0 then 1 else target0
      smgr_stats_percentile_scan hist_arr 0 0 target

/-- smgr_stats_update_activity (smgr_stats_link.c lines 36-46):
first-access capture, last-access update, and distinct-second counting
(active_seconds is uint32). -/
def smgr_stats_update_activity (entry : SmgrStatsEntry) (now : Int) :
    SmgrStatsEntry :=
  let e1 := if entry.first_access = 0 then { entry with first_access := now } else entry
  let e2 := { e1 with last_access := now }
  let current_second := now / usecsPerSec
  if current_second ≠ e2.last_active_second then
    { e2 with active_seconds := (e2.active_seconds + 1) % U32
              last_active_second := current_second }
  else e2

/-- smgr_stats_record_burstiness (smgr_stats_link.c lines 48-54): record
the inter-arrival time when a previous operation timestamp exists, then
remember the current timestamp. -/
def smgr_stats_record_burstiness (burst : SmgrStatsBurstiness) (now : Int) :
    SmgrStatsBurstiness :=
  let iat :=
    if burst.last_op_time ≠ 0 then
      smgr_stats_welford_record burst.iat ((now - burst.last_op_time : Int) : ℚ)
    else burst.iat
  { iat := iat, last_op_time := now }

/-- The statistics update performed on the locked entry by
smgr_stats_writev (smgr_stats_link.c lines 247-261), given the
already-computed sequential-detector result, block count, elapsed
microseconds and current timestamp. -/
def smgr_stats_writev_update (entry : SmgrStatsEntry)
    (seq : SmgrStatsSeqResult) (nblocks elapsed_us : Nat) (now : Int) :
    SmgrStatsEntry :=
  let e1 := { entry with
    writes := (entry.writes + 1) % U64
    write_blocks := (entry.write_blocks + nblocks) % U64 }
  let e2 :=
    if seq.is_sequential then
      { e1 with sequential_writes := (e1.sequential_writes + 1) % U64 }
    else
      { e1 with random_writes := (e1.random_writes + 1) % U64 }
  let e3 :=
    if seq.completed_run > 0 then
      { e2 with write_runs := smgr_stats_welford_record e2.write_runs (seq.completed_run : ℚ) }
    else e2
  let e4 := { e3 with write_timing := smgr_stats_hist_record e3.write_timing elapsed_us }
  let e5 := { e4 with write_burst := smgr_stats_record_burstiness e4.write_burst now }
  smgr_stats_update_activity e5 now

/-- One smgr_stats_writev call against a single tracked entry whose
tracking key equals the real key (smgr_stats_link.c lines 218-262): run the
sequential detector on the backend-local cache, then apply the statistics
update to the locked entry. -/
def smgr_stats_writev_step (st : SmgrStatsPatternCache × SmgrStatsEntry)
    (blocknum nblocks elapsed_us : Nat) (now : Int) :
    SmgrStatsPatternCache × SmgrStatsEntry :=
  let (seq, cache2) :=
    smgr_stats_check_sequential st.1 st.2.key blocknum nblocks false
  (cache2, smgr_stats_writev_update st.2 seq nblocks elapsed_us now)

/-- C10: the per-entry reset applied by a destructive snapshot leaves the
entry's key and its entire metadata block unchanged: the post-snapshot
store carries exactly the same (key, metadata) pairs as before, and
smgr_stats_entry_reset itself touches neither field. -/
theorem entry_reset_preserves_identity :
    ∀ s : SmgrStatsStore,
      (smgr_stats_snapshot_and_reset s).2.2.entries.map (fun e => (e.key, e.meta))
        = s.entries.map (fun e => (e.key, e.meta))
      ∧ ∀ e : SmgrStatsEntry,
          (smgr_stats_entry_reset e).key = e.key
          ∧ (smgr_stats_entry_reset e).meta = e.meta := by
  intro s
  constructor
  · simp only [smgr_stats_snapshot_and_reset, snapshot_entries, if_pos, List.map_map]
    refine List.map_congr_left ?_
    intro e _
    by_cases h : e.first_access = 0 <;> simp [h, smgr_stats_entry_reset]
  · intro e
    exact ⟨rfl, rfl⟩

/-- C2: for every store state, a destructive snapshot returns the id of the
bucket just closed (the pre-increment counter value) and resets every
reported entry in place; the immediately following non-destructive snapshot
reports a bucket id exactly one greater and an empty entry list (every
entry has been reset, so first_access is unset and the entry is excluded —
in particular no nonzero counter is reported); the per-entry reset zeroes
all period counters, histograms, classification counters and run/IAT
accumulators while preserving last_active_second and the read/write
last-operation timestamps. -/
theorem snapshot_after_destructive_snapshot :
    ∀ s : SmgrStatsStore,
      (smgr_stats_snapshot_and_reset s).2.1 = s.bucket_id
      ∧ (smgr_stats_snapshot (smgr_stats_snapshot_and_reset s).2.2).2.1
          = (smgr_stats_snapshot_and_reset s).2.1 + 1
      ∧ (smgr_stats_snapshot (smgr_stats_snapshot_and_reset s).2.2).1 = []
      ∧ (smgr_stats_snapshot_and_reset s).1
          = s.entries.filter (fun e => e.first_access ≠ 0)
      ∧ ∀ e : SmgrStatsEntry,
          (smgr_stats_entry_reset e).reads = 0
          ∧ (smgr_stats_entry_reset e).read_blocks = 0
          ∧ (smgr_stats_entry_reset e).writes = 0
          ∧ (smgr_stats_entry_reset e).write_blocks = 0
          ∧ (smgr_stats_entry_reset e).extends_ = 0
          ∧ (smgr_stats_entry_reset e).extend_blocks = 0
          ∧ (smgr_stats_entry_reset e).truncates = 0
          ∧ (smgr_stats_entry_reset e).fsyncs = 0
          ∧ (smgr_stats_entry_reset e).read_timing = smgr_stats_hist_reset
          ∧ (smgr_stats_entry_reset e).write_timing = smgr_stats_hist_reset
          ∧ (smgr_stats_entry_reset e).read_burst.iat = smgr_stats_welford_reset
          ∧ (smgr_stats_entry_reset e).write_burst.iat = smgr_stats_welford_reset
          ∧ (smgr_stats_entry_reset e).sequential_reads = 0
          ∧ (smgr_stats_entry_reset e).random_reads = 0
          ∧ (smgr_stats_entry_reset e).sequential_writes = 0
          ∧ (smgr_stats_entry_reset e).random_writes = 0
          ∧ (smgr_stats_entry_reset e).read_runs = smgr_stats_welford_reset
          ∧ (smgr_stats_entry_reset e).write_runs = smgr_stats_welford_reset
          ∧ (smgr_stats_entry_reset e).active_seconds = 0
          ∧ (smgr_stats_entry_reset e).first_access = 0
          ∧ (smgr_stats_entry_reset e).last_access = 0
          ∧ (smgr_stats_entry_reset e).last_active_second = e.last_active_second
          ∧ (smgr_stats_entry_reset e).read_burst.last_op_time
              = e.read_burst.last_op_time
          ∧ (smgr_stats_entry_reset e).write_burst.last_op_time
              = e.write_burst.last_op_time := by
  intro s
  refine ⟨rfl, rfl, ?_, rfl, ?_⟩
  · simp only [smgr_stats_snapshot, smgr_stats_snapshot_and_reset, snapshot_entries,
      if_pos]
    rw [List.filter_eq_nil_iff]
    intro e he
    rw [List.mem_map] at he
    obtain ⟨a, _, rfl⟩ := he
    by_cases h : a.first_access = 0 <;> simp [h, smgr_stats_entry_reset]
  · intro e
    refine ⟨rfl, rfl, rfl, rfl, rfl, rfl, rfl, rfl, rfl, rfl, rfl, rfl, rfl, rfl,
      rfl, rfl, rfl, rfl, rfl, rfl, rfl, rfl, rfl, rfl⟩

/-- A sample key used to instantiate the theorems below on concrete data. -/
def exKey : SmgrStatsKey :=
  { spcOid := 1663, dbOid := 5, relNumber := 16384, forknum := 0 }

/-- A sample resolved metadata block. -/
def exResolvedMeta : SmgrStatsEntryMeta :=
  { reloid := 1259, main_reloid := 0, relkind := 114, relname := "pg_class"
    nspname := "pg_catalog", metadata_valid := true }

/-- An entry whose metadata has already been resolved. -/
def exResolvedEntry : SmgrStatsEntry :=
  { smgr_stats_new_entry exKey with meta := exResolvedMeta }

/-- A backend context that is inside a critical section (with a catalog
oracle that would fail if it were consulted). -/
def critSectionCtx : SmgrStatsLookupCtx :=
  { myDatabaseId := 5, inTransaction := true, critSectionCount := 1
    catalog := fun _ => none }

/-- C3: metadata resolution never regresses.  Once an entry's
metadata_valid flag is true, the re-check-under-lock step of the
per-backend pending-list drain, the bulk new-database apply (including its
sibling-fork propagation), and the collector's inline resolution all leave
the entry completely unchanged; and any successful lookup produces a
metadata block with metadata_valid = true, so the only possible write is
the invalid-to-valid transition (first writer wins). -/
theorem metadata_resolution_no_regress :
    ∀ (e : SmgrStatsEntry) (m : SmgrStatsEntryMeta) (ctx : SmgrStatsLookupCtx)
      (k : SmgrStatsKey) (forks : List SmgrStatsEntry),
      e.meta.metadata_valid = true →
      smgr_stats_apply_pending_metadata e m = e
      ∧ smgr_stats_propagate_fork_metadata e m = e
      ∧ smgr_stats_apply_collected_metadata e forks m = (e, forks)
      ∧ (smgr_stats_resolve_metadata ctx e k).1 = e
      ∧ ∀ (ctx2 : SmgrStatsLookupCtx) (k2 : SmgrStatsKey),
          (smgr_stats_lookup_metadata ctx2 k2).1 = true →
          (smgr_stats_lookup_metadata ctx2 k2).2.metadata_valid = true := by
  intro e m ctx k forks h
  refine ⟨?_, ?_, ?_, ?_, ?_⟩
  · simp [smgr_stats_apply_pending_metadata, h]
  · simp [smgr_stats_propagate_fork_metadata, h]
  · simp [smgr_stats_apply_collected_metadata, h]
  · simp [smgr_stats_resolve_metadata, h]
  · intro ctx2 k2 hok
    unfold smgr_stats_lookup_metadata at hok ⊢
    split_ifs at hok ⊢ with h1 h2 h3 h4 h5 <;>
      cases hc : ctx2.catalog k2 <;> simp_all [tempAggregateMeta]

/-- Witness for C3: the no-regress theorem applied to a concrete resolved
entry; the pending-drain apply step leaves it untouched. -/
theorem metadata_resolution_no_regress_witness :
    exResolvedEntry.meta.metadata_valid = true
    ∧ smgr_stats_apply_pending_metadata exResolvedEntry invalidEntryMeta
        = exResolvedEntry :=
  ⟨rfl, (metadata_resolution_no_regress exResolvedEntry invalidEntryMeta
    critSectionCtx exKey [] rfl).1⟩

/-- Counterexample for C8: the synthetic temp-aggregate branch of
smgr_stats_lookup_metadata precedes every refusal check, so a lookup for
the temp-aggregate key performed inside a critical section (a refusal
condition; the key's relation number is moreover the zero sentinel,
another refusal condition) returns "resolved" with valid synthetic
metadata instead of "not resolved". -/
theorem lookup_metadata_refusal_cex :
    critSectionCtx.critSectionCount > 0
    ∧ (smgr_stats_temp_aggregate_key 5).relNumber = 0
    ∧ (smgr_stats_lookup_metadata critSectionCtx
        (smgr_stats_temp_aggregate_key 5)).1 = true
    ∧ (smgr_stats_lookup_metadata critSectionCtx
        (smgr_stats_temp_aggregate_key 5)).2.metadata_valid = true := by
  refine ⟨by decide, rfl, rfl, rfl⟩

/-- C8 (amended): for every key other than the synthetic temp-aggregate
key, whenever any refusal condition holds — the relation number is the
zero/invalid sentinel, no logical database context is established, the
caller is not inside a transaction, or the caller is inside a critical
section — smgr_stats_lookup_metadata returns "not resolved" (false) with
the output metadata left in the invalid state; the function touches no
entry (it is a pure lookup) and raises no error on these paths. -/
theorem lookup_metadata_refusal_amended :
    ∀ (ctx : SmgrStatsLookupCtx) (key : SmgrStatsKey),
      smgr_stats_is_temp_aggregate_key key = false →
      (key.relNumber = 0 ∨ ctx.myDatabaseId = 0 ∨ ctx.inTransaction = false
        ∨ ctx.critSectionCount > 0) →
      smgr_stats_lookup_metadata ctx key = (false, invalidEntryMeta) := by
  intro ctx key hAgg href
  unfold smgr_stats_lookup_metadata
  rw [hAgg]
  simp only [Bool.false_eq_true, if_false]
  split_ifs with h1 h2 h3 h4
  any_goals rfl
  exfalso
  rcases href with h | h | h | h <;> simp_all

/-- Witness for C8's amended theorem: a lookup for an ordinary relation
key inside a critical section is refused. -/
theorem lookup_metadata_refusal_amended_witness :
    smgr_stats_is_temp_aggregate_key exKey = false
    ∧ (exKey.relNumber = 0 ∨ critSectionCtx.myDatabaseId = 0
        ∨ critSectionCtx.inTransaction = false
        ∨ critSectionCtx.critSectionCount > 0)
    ∧ smgr_stats_lookup_metadata critSectionCtx exKey
        = (false, invalidEntryMeta) :=
  ⟨by decide, Or.inr (Or.inr (Or.inr (by decide))),
   lookup_metadata_refusal_amended critSectionCtx exKey (by decide)
     (Or.inr (Or.inr (Or.inr (by decide))))⟩

/-- One smgr_stats_hist_record step preserves: all bins below 2^64, count
below 2^64, and sum-of-bins congruent to count modulo 2^64. -/
lemma hist_record_step_inv (h : SmgrStatsTimingHist) (v : Nat)
    (hb : ∀ i, h.bins i < U64) (_hc : h.count < U64)
    (hs : (∑ i : Fin 32, h.bins i) % U64 = h.count) :
    (∀ i, (smgr_stats_hist_record h v).bins i < U64)
    ∧ (smgr_stats_hist_record h v).count < U64
    ∧ (∑ i : Fin 32, (smgr_stats_hist_record h v).bins i) % U64
        = (smgr_stats_hist_record h v).count := by
  have hU : 0 < U64 := by norm_num [U64]
  set b := smgr_stats_hist_bin v with hbdef
  refine ⟨?_, ?_, ?_⟩
  · intro i
    by_cases hib : i = b
    · simp [smgr_stats_hist_record, hib, Nat.mod_lt _ hU]
    · simp [smgr_stats_hist_record, Function.update_apply, hib]
      exact hb i
  · exact Nat.mod_lt _ hU
  · have e1 : (∑ i : Fin 32, (smgr_stats_hist_record h v).bins i)
        = (h.bins b + 1) % U64 + ∑ i ∈ Finset.univ \ {b}, h.bins i := by
      simp only [smgr_stats_hist_record]
      rw [Finset.sum_update_of_mem (Finset.mem_univ b)]
    have e2 : (∑ i : Fin 32, h.bins i)
        = h.bins b + ∑ i ∈ Finset.univ \ {b}, h.bins i :=
      Finset.sum_eq_add_sum_diff_singleton (Finset.mem_univ b) _
    have e3 : (smgr_stats_hist_record h v).count = (h.count + 1) % U64 := rfl
    rw [e1, e3]
    rw [e2] at hs
    simp only [U64] at hs ⊢
    omega

/-- Invariant propagation along any record sequence. -/
lemma hist_record_all_inv (vs : List Nat) :
    ∀ (h : SmgrStatsTimingHist),
      (∀ i, h.bins i < U64) → h.count < U64 →
      (∑ i : Fin 32, h.bins i) % U64 = h.count →
      (∑ i : Fin 32, (smgr_stats_hist_record_all h vs).bins i) % U64
        = (smgr_stats_hist_record_all h vs).count := by
  induction vs with
  | nil => intro h _ _ hs; exact hs
  | cons v vs ih =>
      intro h hb hc hs
      have step := hist_record_step_inv h v hb hc hs
      exact ih (smgr_stats_hist_record h v) step.1 step.2.1 step.2.2

/-- C6: smgr_stats_hist_record increments exactly one bin — bin 0 for a
zero value, else bin min(floor(log2 v) + 1, 31) — leaves every other bin
unchanged, increments count, adds the value to the cumulative sum, and
updates min (sentinel-initialized to the maximum uint64 value by reset)
and max; consequently, after any sequence of record calls starting from
the reset state, the (uint64) sum of the 32 bin counts equals count. -/
theorem hist_record_spec :
    (∀ (h : SmgrStatsTimingHist) (v : Nat),
        (smgr_stats_hist_record h v).bins (smgr_stats_hist_bin v)
          = (h.bins (smgr_stats_hist_bin v) + 1) % U64
        ∧ (∀ j : Fin 32, j ≠ smgr_stats_hist_bin v →
            (smgr_stats_hist_record h v).bins j = h.bins j)
        ∧ (smgr_stats_hist_bin v : Nat)
            = (if v = 0 then 0 else min (Nat.log2 v + 1) 31)
        ∧ (smgr_stats_hist_record h v).count = (h.count + 1) % U64
        ∧ (smgr_stats_hist_record h v).total_us = (h.total_us + v) % U64
        ∧ (smgr_stats_hist_record h v).min_us
            = (if v < h.min_us then v else h.min_us)
        ∧ (smgr_stats_hist_record h v).max_us
            = (if v > h.max_us then v else h.max_us)
        ∧ smgr_stats_hist_reset.min_us = U64 - 1)
    ∧ ∀ vs : List Nat,
        (∑ i : Fin 32,
            (smgr_stats_hist_record_all smgr_stats_hist_reset vs).bins i) % U64
          = (smgr_stats_hist_record_all smgr_stats_hist_reset vs).count := by
  constructor
  · intro h v
    refine ⟨?_, ?_, ?_, rfl, rfl, rfl, rfl, rfl⟩
    · simp [smgr_stats_hist_record]
    · intro j hj
      simp [smgr_stats_hist_record, Function.update_apply, hj]
    · unfold smgr_stats_hist_bin
      split <;> rfl
  · intro vs
    exact hist_record_all_inv vs smgr_stats_hist_reset
      (fun i => by norm_num [smgr_stats_hist_reset, U64])
      (by norm_num [smgr_stats_hist_reset, U64])
      (by simp [smgr_stats_hist_reset])

/-- Witness for C6: recording the value 5 (bin 3) into a reset histogram
leaves bin 0 untouched. -/
theorem hist_record_spec_witness :
    (⟨0, by omega⟩ : Fin 32) ≠ smgr_stats_hist_bin 5
    ∧ (smgr_stats_hist_record smgr_stats_hist_reset 5).bins ⟨0, by omega⟩
        = smgr_stats_hist_reset.bins ⟨0, by omega⟩ := by
  have hbin : smgr_stats_hist_bin 5 = ⟨3, by omega⟩ := by
    simp [smgr_stats_hist_bin, Nat.log2]
  have hne : (⟨0, by omega⟩ : Fin 32) ≠ smgr_stats_hist_bin 5 := by
    rw [hbin]; decide
  exact ⟨hne, (hist_record_spec.1 smgr_stats_hist_reset 5).2.1 ⟨0, by omega⟩ hne⟩

/-- A sample queue state with three pending events. -/
def exQueue : SmgrStatsRelfileQueue :=
  { head := 5, tail := 2, entries := fun _ => default }

/-- C9: the relfile event queue's usable capacity is
RELFILE_ASSOC_QUEUE_SIZE - 1 = 1023: under the invariant
tail ≤ head ∧ head - tail ≤ 1023, an enqueue is dropped (the state is
returned unchanged) exactly when 1023 undrained events are pending — the
full test compares the masked next-head position with the masked tail —
and otherwise advances head by one; both enqueue and drain preserve the
invariant. -/
theorem relfile_queue_capacity_invariant :
    ∀ (q : SmgrStatsRelfileQueue) (ev : SmgrStatsRelfileAssoc),
      q.tail ≤ q.head → q.head - q.tail ≤ relfileAssocQueueSize - 1 →
      ((q.head - q.tail = relfileAssocQueueSize - 1 →
          smgr_stats_queue_relfile_assoc q ev = q)
       ∧ (q.head - q.tail < relfileAssocQueueSize - 1 →
          (smgr_stats_queue_relfile_assoc q ev).head = q.head + 1
          ∧ (smgr_stats_queue_relfile_assoc q ev).tail = q.tail)
       ∧ (smgr_stats_queue_relfile_assoc q ev).tail
            ≤ (smgr_stats_queue_relfile_assoc q ev).head
       ∧ (smgr_stats_queue_relfile_assoc q ev).head
            - (smgr_stats_queue_relfile_assoc q ev).tail
            ≤ relfileAssocQueueSize - 1
       ∧ (smgr_stats_drain_relfile_queue q).2.tail
            ≤ (smgr_stats_drain_relfile_queue q).2.head
       ∧ (smgr_stats_drain_relfile_queue q).2.head
            - (smgr_stats_drain_relfile_queue q).2.tail
            ≤ relfileAssocQueueSize - 1) := by
  intro q ev hle hcap
  have hfull : ((q.head + 1) % relfileAssocQueueSize
      = q.tail % relfileAssocQueueSize)
      ↔ q.head - q.tail = relfileAssocQueueSize - 1 := by
    simp only [relfileAssocQueueSize] at *
    omega
  have hlt : ¬ q.head < q.tail := by omega
  refine ⟨?_, ?_, ?_, ?_, ?_, ?_⟩
  · intro h
    have hc := hfull.mpr h
    simp [smgr_stats_queue_relfile_assoc, hc]
  · intro h
    have hc : ¬ (q.head + 1) % relfileAssocQueueSize
        = q.tail % relfileAssocQueueSize := by
      intro hc
      have := hfull.mp hc
      omega
    simp [smgr_stats_queue_relfile_assoc, hc]
  · by_cases hc : (q.head + 1) % relfileAssocQueueSize
        = q.tail % relfileAssocQueueSize
    · simpa [smgr_stats_queue_relfile_assoc, hc] using hle
    · simp [smgr_stats_queue_relfile_assoc, hc]
      omega
  · by_cases hc : (q.head + 1) % relfileAssocQueueSize
        = q.tail % relfileAssocQueueSize
    · simpa [smgr_stats_queue_relfile_assoc, hc] using hcap
    · have hne : q.head - q.tail ≠ relfileAssocQueueSize - 1 :=
        fun hh => hc (hfull.mpr hh)
      simp [smgr_stats_queue_relfile_assoc, hc]
      simp only [relfileAssocQueueSize] at *
      omega
  · by_cases hn : (q.head - q.tail) % relfileAssocQueueSize = 0
    · simpa [smgr_stats_drain_relfile_queue, hlt, hn] using hle
    · simp [smgr_stats_drain_relfile_queue, hlt, hn]
  · by_cases hn : (q.head - q.tail) % relfileAssocQueueSize = 0
    · simpa [smgr_stats_drain_relfile_queue, hlt, hn] using hcap
    · simp [smgr_stats_drain_relfile_queue, hlt, hn]

/-- Witness for C9: enqueuing into a queue holding three pending events
(below capacity) advances head and leaves tail alone. -/
theorem relfile_queue_capacity_invariant_witness :
    exQueue.tail ≤ exQueue.head
    ∧ exQueue.head - exQueue.tail < relfileAssocQueueSize - 1
    ∧ (smgr_stats_queue_relfile_assoc exQueue default).head = exQueue.head + 1
    ∧ (smgr_stats_queue_relfile_assoc exQueue default).tail = exQueue.tail :=
  ⟨by decide, by decide,
   ((relfile_queue_capacity_invariant exQueue default (by decide)
      (by decide)).2.1 (by decide)).1,
   ((relfile_queue_capacity_invariant exQueue default (by decide)
      (by decide)).2.1 (by decide)).2⟩

/-- State after enqueuing a list of events into the freshly initialized
queue: tail stays 0, head counts the retained events (capped at the usable
capacity 1023), and slot i holds the i-th event for every retained i. -/
lemma queue_all_init_state (evs : List SmgrStatsRelfileAssoc) :
    (smgr_stats_queue_all initRelfileQueue evs).tail = 0
    ∧ (smgr_stats_queue_all initRelfileQueue evs).head = min evs.length 1023
    ∧ ∀ i, i < min evs.length 1023 →
        (smgr_stats_queue_all initRelfileQueue evs).entries i
          = evs.getD i default := by
  induction evs using List.reverseRecOn with
  | nil => exact ⟨rfl, rfl, fun i hi => by simp at hi⟩
  | append_singleton evs ev ih =>
      obtain ⟨iht, ihh, ihe⟩ := ih
      have hfold : smgr_stats_queue_all initRelfileQueue (evs ++ [ev])
          = smgr_stats_queue_relfile_assoc
              (smgr_stats_queue_all initRelfileQueue evs) ev := by
        simp [smgr_stats_queue_all]
      set q := smgr_stats_queue_all initRelfileQueue evs with hq
      by_cases hcap : evs.length < 1023
      · -- below capacity: the event is retained
        have hh : q.head = evs.length := by rw [ihh]; omega
        have hnotfull : ¬ (q.head + 1) % relfileAssocQueueSize
            = q.tail % relfileAssocQueueSize := by
          rw [hh, iht]
          simp only [relfileAssocQueueSize]
          omega
        rw [hfold]
        unfold smgr_stats_queue_relfile_assoc
        rw [if_neg hnotfull]
        refine ⟨iht, ?_, ?_⟩
        · show q.head + 1 = min (evs ++ [ev]).length 1023
          rw [hh]
          simp only [List.length_append, List.length_singleton]
          omega
        · intro i hi
          simp only [List.length_append, List.length_singleton] at hi
          show Function.update q.entries (q.head % relfileAssocQueueSize) ev i
              = (evs ++ [ev]).getD i default
          have hmod : q.head % relfileAssocQueueSize = evs.length := by
            rw [hh]
            simp only [relfileAssocQueueSize]
            omega
          rw [hmod]
          rcases Nat.lt_or_ge i evs.length with hlt | hge
          · rw [Function.update_apply, if_neg (by omega)]
            rw [ihe i (by omega), List.getD_append _ _ _ _ hlt]
          · have hieq : i = evs.length := by omega
            subst hieq
            rw [Function.update_apply, if_pos rfl]
            rw [List.getD_append_right _ _ _ _ hge]
            simp
      · -- at capacity: the event is dropped
        have hh : q.head = 1023 := by rw [ihh]; omega
        have hisfull : (q.head + 1) % relfileAssocQueueSize
            = q.tail % relfileAssocQueueSize := by
          rw [hh, iht]
          simp only [relfileAssocQueueSize]
        rw [hfold]
        unfold smgr_stats_queue_relfile_assoc
        rw [if_pos hisfull]
        refine ⟨iht, ?_, ?_⟩
        · rw [ihh]
          simp only [List.length_append, List.length_singleton]
          omega
        · intro i hi
          simp only [List.length_append, List.length_singleton] at hi
          rw [ihe i (by omega), List.getD_append _ _ _ _ (by omega)]

/-- C5: for every sequence of enqueues into the freshly initialized relfile
event queue with no intervening drain, only the first 1023 (the usable
capacity, RELFILE_ASSOC_QUEUE_SIZE - 1) events are retained — each later
enqueue returns without blocking, dropping only the newest events — and a
subsequent single drain returns exactly the retained events in enqueue
order and empties the buffer, leaving head equal to tail. -/
theorem relfile_queue_fifo :
    ∀ evs : List SmgrStatsRelfileAssoc,
      (smgr_stats_queue_all initRelfileQueue evs).head
        = min evs.length (relfileAssocQueueSize - 1)
      ∧ (smgr_stats_drain_relfile_queue
          (smgr_stats_queue_all initRelfileQueue evs)).1
          = evs.take (relfileAssocQueueSize - 1)
      ∧ (smgr_stats_drain_relfile_queue
          (smgr_stats_queue_all initRelfileQueue evs)).2.head
        = (smgr_stats_drain_relfile_queue
            (smgr_stats_queue_all initRelfileQueue evs)).2.tail := by
  intro evs
  obtain ⟨ht, hh, he⟩ := queue_all_init_state evs
  set q := smgr_stats_queue_all initRelfileQueue evs with hq
  have hsize : relfileAssocQueueSize - 1 = 1023 := rfl
  have hlt : ¬ q.head < q.tail := by rw [ht]; omega
  have hn : (if q.head < q.tail then 0
      else (q.head - q.tail) % relfileAssocQueueSize) = min evs.length 1023 := by
    rw [if_neg hlt, ht, hh]
    simp only [relfileAssocQueueSize]
    omega
  refine ⟨by rw [hh, hsize], ?_, ?_⟩
  · unfold smgr_stats_drain_relfile_queue
    rw [hn]
    by_cases h0 : min evs.length 1023 = 0
    · rw [if_pos h0]
      have : evs = [] := by
        rcases evs with _ | ⟨a, l⟩
        · rfl
        · simp at h0
      subst this
      simp
    · rw [if_neg h0]
      show (List.range (min evs.length 1023)).map
          (fun i => q.entries ((q.tail + i) % relfileAssocQueueSize))
          = evs.take (relfileAssocQueueSize - 1)
      refine List.ext_getElem ?_ ?_
      · simp [hsize]
        omega
      · intro i h1 h2
        simp only [List.getElem_map, List.getElem_range]
        have hi : i < min evs.length 1023 := by simpa using h1
        have hmod : (q.tail + i) % relfileAssocQueueSize = i := by
          rw [ht]
          simp only [relfileAssocQueueSize]
          omega
        rw [hmod, he i hi]
        simp only [List.getElem_take]
        exact List.getD_eq_getElem evs default (by omega)
  · unfold smgr_stats_drain_relfile_queue
    rw [hn]
    by_cases h0 : min evs.length 1023 = 0
    · rw [if_pos h0]
      rw [ht, hh, h0]
    · rw [if_neg h0]

/-- Appending a fresh binding makes it visible to lookup. -/
lemma patternCacheLookup_append_self (cache : SmgrStatsPatternCache)
    (key : SmgrStatsKey) (pat : SmgrStatsLocalPattern)
    (h : patternCacheLookup cache key = none) :
    patternCacheLookup (cache ++ [(key, pat)]) key = some pat := by
  induction cache with
  | nil => simp [patternCacheLookup]
  | cons a tl ih =>
      by_cases hak : a.1 = key
      · simp [patternCacheLookup, List.find?_cons_of_pos, hak] at h
      · unfold patternCacheLookup at h ⊢
        rw [List.cons_append, List.find?_cons_of_neg _ (by simpa using hak)]
        rw [List.find?_cons_of_neg _ (by simpa using hak)] at h
        exact ih h

/-- Replacing the binding for a present key makes the new value visible. -/
lemma patternCacheLookup_map_replace (cache : SmgrStatsPatternCache)
    (key : SmgrStatsKey) (pat : SmgrStatsLocalPattern)
    (h : (patternCacheLookup cache key).isSome) :
    patternCacheLookup
      (cache.map (fun p => if p.1 = key then (key, pat) else p)) key
      = some pat := by
  induction cache with
  | nil => simp [patternCacheLookup] at h
  | cons a tl ih =>
      by_cases hak : a.1 = key
      · unfold patternCacheLookup
        rw [List.map_cons, if_pos hak,
          List.find?_cons_of_pos _ (by simp)]
        rfl
      · unfold patternCacheLookup at h ⊢
        rw [List.map_cons, if_neg hak,
          List.find?_cons_of_neg _ (by simpa using hak)]
        rw [List.find?_cons_of_neg _ (by simpa using hak)] at h
        exact ih h

/-- The pattern stored back by check_sequential is what a later lookup for
the same key finds. -/
lemma patternCacheLookup_store (cache : SmgrStatsPatternCache)
    (key : SmgrStatsKey) (pat : SmgrStatsLocalPattern) :
    patternCacheLookup (patternCacheStore cache key pat) key = some pat := by
  unfold patternCacheStore
  cases h : patternCacheLookup cache key with
  | none => exact patternCacheLookup_append_self cache key pat h
  | some q => exact patternCacheLookup_map_replace cache key pat (by simp [h])

/-- C4: for every call to smgr_stats_check_sequential: when a prior access
is recorded for the same key and direction (last_block is not the
InvalidBlockNumber marker) and the block equals that last_block plus 1, the
result is sequential with completed_run 0 and the direction's current run
grows by nblocks; otherwise the result is non-sequential with
completed_run equal to the previous current-run length (0 if the key was
never seen) and the current run restarts at nblocks; in both cases the
direction's last_block becomes block + nblocks - 1 (uint32); and the
concrete sequence of single-block reads at blocks 0, 1, 2 reports
sequential for blocks 1 and 2 while the following non-contiguous read at
block 10 reports completed_run 3. -/
theorem check_sequential_spec :
    ∀ (cache : SmgrStatsPatternCache) (key : SmgrStatsKey)
      (blocknum nblocks : Nat) (is_read : Bool),
      let pat := (patternCacheLookup cache key).getD freshLocalPattern
      let last_block :=
        if is_read then pat.last_read_block else pat.last_write_block
      let current_run :=
        if is_read then pat.current_read_run else pat.current_write_run
      let out := smgr_stats_check_sequential cache key blocknum nblocks is_read
      let pat2 := (patternCacheLookup out.2 key).getD freshLocalPattern
      let run2 :=
        if is_read then pat2.current_read_run else pat2.current_write_run
      let last2 :=
        if is_read then pat2.last_read_block else pat2.last_write_block
      ((last_block ≠ invalidBlockNumber ∧ blocknum = (last_block + 1) % U32) →
          out.1 = ⟨true, 0⟩ ∧ run2 = (current_run + nblocks) % U64)
      ∧ ((last_block = invalidBlockNumber ∨ blocknum ≠ (last_block + 1) % U32) →
          out.1 = ⟨false, current_run⟩ ∧ run2 = nblocks)
      ∧ last2 = (blocknum + nblocks + (U32 - 1)) % U32
      ∧ (let k0 : SmgrStatsKey := ⟨0, 0, 0, 0⟩
         let s0 := smgr_stats_check_sequential [] k0 0 1 true
         let s1 := smgr_stats_check_sequential s0.2 k0 1 1 true
         let s2 := smgr_stats_check_sequential s1.2 k0 2 1 true
         let s3 := smgr_stats_check_sequential s2.2 k0 10 1 true
         s1.1.is_sequential = true ∧ s2.1.is_sequential = true
           ∧ s3.1.is_sequential = false ∧ s3.1.completed_run = 3) := by
  intro cache key blocknum nblocks is_read
  simp only
  set pat := (patternCacheLookup cache key).getD freshLocalPattern with hpat
  by_cases hseq :
      ((if is_read then pat.last_read_block else pat.last_write_block)
          ≠ invalidBlockNumber
        ∧ blocknum
          = ((if is_read then pat.last_read_block else pat.last_write_block) + 1)
              % U32)
  · have hout : smgr_stats_check_sequential cache key blocknum nblocks is_read
        = (⟨true, 0⟩,
           patternCacheStore cache key
             (if is_read then
               { pat with
                 last_read_block := (blocknum + nblocks + (U32 - 1)) % U32
                 current_read_run :=
                   (pat.current_read_run + nblocks) % U64 }
              else
               { pat with
                 last_write_block := (blocknum + nblocks + (U32 - 1)) % U32
                 current_write_run :=
                   (pat.current_write_run + nblocks) % U64 })) := by
      unfold smgr_stats_check_sequential
      rw [← hpat]
      dsimp only
      rw [if_pos hseq, if_pos hseq]
      all_goals cases is_read <;> simp
    rw [hout]
    refine ⟨fun _ => ?_, fun hx => ?_, ?_, ?_⟩
    · cases is_read <;> simp [patternCacheLookup_store]
    · exfalso
      rcases hx with hx | hx
      · exact hseq.1 hx
      · exact hx hseq.2
    · cases is_read <;> simp [patternCacheLookup_store]
    · refine ⟨by decide, by decide, by decide, by decide⟩
  · have hout : smgr_stats_check_sequential cache key blocknum nblocks is_read
        = (⟨false,
            if is_read then pat.current_read_run else pat.current_write_run⟩,
           patternCacheStore cache key
             (if is_read then
               { pat with
                 last_read_block := (blocknum + nblocks + (U32 - 1)) % U32
                 current_read_run := nblocks }
              else
               { pat with
                 last_write_block := (blocknum + nblocks + (U32 - 1)) % U32
                 current_write_run := nblocks })) := by
      unfold smgr_stats_check_sequential
      rw [← hpat]
      dsimp only
      rw [if_neg hseq, if_neg hseq]
    rw [hout]
    refine ⟨fun hx => absurd hx hseq, fun _ => ?_, ?_, ?_⟩
    · cases is_read <;> simp [patternCacheLookup_store]
    · cases is_read <;> simp [patternCacheLookup_store]
    · refine ⟨by decide, by decide, by decide, by decide⟩

/-- A pattern cache holding one read streak for exKey, ending at block 5
with a current run of 2. -/
def exSeqCache : SmgrStatsPatternCache :=
  [(exKey,
    { last_read_block := 5, last_write_block := invalidBlockNumber
      current_read_run := 2, current_write_run := 0 })]

/-- Witness for C4: a read of block 6 continuing the cached streak ending
at block 5 is classified sequential with nothing finalized. -/
theorem check_sequential_spec_witness :
    (((patternCacheLookup exSeqCache exKey).getD
        freshLocalPattern).last_read_block ≠ invalidBlockNumber
      ∧ (6 : Nat) = (((patternCacheLookup exSeqCache exKey).getD
          freshLocalPattern).last_read_block + 1) % U32)
    ∧ (smgr_stats_check_sequential exSeqCache exKey 6 1 true).1
        = ⟨true, 0⟩ := by
  have h := check_sequential_spec exSeqCache exKey 6 1 true
  exact ⟨by decide, (h.1 (by decide)).1⟩

/-- The percentile scan loop never reports a contract violation. -/
lemma percentile_scan_ne_raised :
    ∀ (l : List Int) (i : Nat) (cum target : Int),
      smgr_stats_percentile_scan l i cum target
        ≠ SmgrStatsPercentileOutcome.raised := by
  intro l
  induction l with
  | nil => intro i cum target h; simp [smgr_stats_percentile_scan] at h
  | cons b rest ih =>
      intro i cum target h
      unfold smgr_stats_percentile_scan at h
      by_cases hc : cum + b ≥ target
      · rw [if_pos hc] at h
        simp at h
      · rw [if_neg hc] at h
        exact ih (i + 1) (cum + b) target h

/-- When the target is reachable, the scan returns the lower bound of the
first position whose cumulative sum reaches the target. -/
lemma percentile_scan_value (l : List Int) :
    ∀ (i : Nat) (cum target : Int),
      target ≤ cum + l.sum → l ≠ [] →
      ∃ k, k < l.length
        ∧ smgr_stats_percentile_scan l i cum target
            = .value (if i + k = 0 then 0 else (2 : ℚ) ^ (i + k - 1))
        ∧ target ≤ cum + (l.take (k + 1)).sum
        ∧ ∀ j, j < k → cum + (l.take (j + 1)).sum < target := by
  induction l with
  | nil => intro i cum target _ hne; exact absurd rfl hne
  | cons b rest ih =>
      intro i cum target h _
      by_cases hc : cum + b ≥ target
      · refine ⟨0, by simp, ?_, by simpa using hc,
          fun j hj => absurd hj (Nat.not_lt_zero j)⟩
        unfold smgr_stats_percentile_scan
        rw [if_pos hc]
        simp
      · by_cases hrest : rest = []
        · subst hrest
          simp only [List.sum_cons, List.sum_nil, add_zero] at h
          omega
        · obtain ⟨k, hk, hscan, hreach, hmin⟩ :=
            ih (i + 1) (cum + b) target
              (by simp only [List.sum_cons] at h; omega) hrest
          refine ⟨k + 1, by simp; omega, ?_, ?_, ?_⟩
          · unfold smgr_stats_percentile_scan
            rw [if_neg hc]
            have hik : i + (k + 1) = (i + 1) + k := by omega
            rw [hik]
            exact hscan
          · rw [List.take_succ_cons, List.sum_cons]
            omega
          · intro j hj
            cases j with
            | zero =>
                simp only [List.take_succ_cons, List.take_zero,
                  List.sum_cons, List.sum_nil, add_zero]
                omega
            | succ j2 =>
                rw [List.take_succ_cons, List.sum_cons]
                have := hmin j2 (by omega)
                omega

/-- C7: smgr_stats_hist_percentile rejects (raises) exactly when the
fraction is outside [0,1] or the bin array length is not 32; with a zero
bin total it reports no data rather than a value; otherwise it computes
target = ceil(total*p) clamped to at least 1 and returns the lower bound
(0 for bin 0, 2^(k-1) for bin k ≥ 1) of the first bin whose cumulative
count reaches the target. -/
theorem hist_percentile_spec :
    ∀ (hist_arr : List Int) (pct : ℚ),
      (smgr_stats_hist_percentile hist_arr pct
          = SmgrStatsPercentileOutcome.raised
        ↔ (pct < 0 ∨ 1 < pct ∨ hist_arr.length ≠ 32))
      ∧ (0 ≤ pct → pct ≤ 1 → hist_arr.length = 32 → hist_arr.sum = 0 →
          smgr_stats_hist_percentile hist_arr pct
            = SmgrStatsPercentileOutcome.noData)
      ∧ (0 ≤ pct → pct ≤ 1 → hist_arr.length = 32 → hist_arr.sum ≠ 0 →
          (∀ b ∈ hist_arr, 0 ≤ b) →
          ∃ k, k < 32
            ∧ smgr_stats_hist_percentile hist_arr pct
                = .value (if k = 0 then 0 else (2 : ℚ) ^ (k - 1))
            ∧ max 1 (Int.ceil ((hist_arr.sum : ℚ) * pct))
                ≤ (hist_arr.take (k + 1)).sum
            ∧ ∀ j, j < k →
                (hist_arr.take (j + 1)).sum
                  < max 1 (Int.ceil ((hist_arr.sum : ℚ) * pct))) := by
  intro l p
  refine ⟨⟨?_, ?_⟩, ?_, ?_⟩
  · intro h
    unfold smgr_stats_hist_percentile at h
    by_cases h1 : p < 0 ∨ p > 1
    · rcases h1 with h1 | h1
      · exact Or.inl h1
      · exact Or.inr (Or.inl h1)
    · rw [if_neg h1] at h
      by_cases h2 : l.length ≠ 32
      · exact Or.inr (Or.inr h2)
      · rw [if_neg h2] at h
        dsimp only at h
        by_cases h3 : l.sum = 0
        · rw [if_pos h3] at h
          simp at h
        · rw [if_neg h3] at h
          exact absurd h (percentile_scan_ne_raised l 0 0 _)
  · intro hcond
    unfold smgr_stats_hist_percentile
    by_cases h1 : p < 0 ∨ p > 1
    · rw [if_pos h1]
    · rw [if_neg h1]
      rcases hcond with hc | hc | hc
      · exact absurd (Or.inl hc) h1
      · exact absurd (Or.inr hc) h1
      · rw [if_pos hc]
  · intro h0 h1 hlen hsum
    unfold smgr_stats_hist_percentile
    rw [if_neg (by rintro (hc | hc) <;> linarith), if_neg (by omega),
      if_pos hsum]
  · intro h0 h1 hlen hsum hnn
    have htotpos : 0 < l.sum :=
      lt_of_le_of_ne (List.sum_nonneg hnn) (Ne.symm hsum)
    have ht00 : 0 ≤ Int.ceil ((l.sum : ℚ) * p) := by
      refine Int.ceil_nonneg (mul_nonneg ?_ h0)
      exact_mod_cast htotpos.le
    have htle : Int.ceil ((l.sum : ℚ) * p) ≤ l.sum := by
      rw [Int.ceil_le]
      calc ((l.sum : ℚ) * p) ≤ (l.sum : ℚ) * 1 := by
            refine mul_le_mul_of_nonneg_left h1 ?_
            exact_mod_cast htotpos.le
        _ = (l.sum : ℚ) := mul_one _
    have htgt_eq : (if Int.ceil ((l.sum : ℚ) * p) = 0 then 1
        else Int.ceil ((l.sum : ℚ) * p))
        = max 1 (Int.ceil ((l.sum : ℚ) * p)) := by
      by_cases hz : Int.ceil ((l.sum : ℚ) * p) = 0
      · rw [if_pos hz, hz]
        simp
      · rw [if_neg hz]
        omega
    have hne : l ≠ [] := by
      intro hcl
      rw [hcl] at hlen
      simp at hlen
    obtain ⟨k, hk, hscan, hreach, hmin⟩ :=
      percentile_scan_value l 0 0 (max 1 (Int.ceil ((l.sum : ℚ) * p)))
        (by omega) hne
    refine ⟨k, by omega, ?_, by simpa using hreach,
      fun j hj => by simpa using hmin j hj⟩
    unfold smgr_stats_hist_percentile
    rw [if_neg (by rintro (hc | hc) <;> linarith), if_neg (by omega),
      if_neg hsum]
    dsimp only
    rw [htgt_eq]
    simpa using hscan

/-- A 32-bin count array with 3 observations in bin 1 and 5 in bin 2. -/
def exHistArr : List Int := [0, 3, 5] ++ List.replicate 29 0

/-- Witness for C7: the median query over exHistArr returns the lower
bound of the first bin whose cumulative count reaches the target. -/
theorem hist_percentile_spec_witness :
    (0 : ℚ) ≤ 1 / 2 ∧ (1 / 2 : ℚ) ≤ 1 ∧ exHistArr.length = 32
    ∧ exHistArr.sum ≠ 0 ∧ (∀ b ∈ exHistArr, 0 ≤ b)
    ∧ ∃ k, k < 32
        ∧ smgr_stats_hist_percentile exHistArr (1 / 2)
            = .value (if k = 0 then 0 else (2 : ℚ) ^ (k - 1))
        ∧ max 1 (Int.ceil ((exHistArr.sum : ℚ) * (1 / 2)))
            ≤ (exHistArr.take (k + 1)).sum
        ∧ ∀ j, j < k →
            (exHistArr.take (j + 1)).sum
              < max 1 (Int.ceil ((exHistArr.sum : ℚ) * (1 / 2))) :=
  ⟨by norm_num, by norm_num, by decide, by decide, by decide,
   (hist_percentile_spec exHistArr (1 / 2)).2.2 (by norm_num) (by norm_num)
     (by decide) (by decide) (by decide)⟩

/-- Field-level description of the writev statistics update: the key is
untouched, the write counters advance, the classification counter matching
the detector result advances, and a positive completed run is recorded
into the write-run accumulator. -/
lemma writev_update_fields (e : SmgrStatsEntry) (seq : SmgrStatsSeqResult)
    (nblocks elapsed_us : Nat) (now : Int) :
    (smgr_stats_writev_update e seq nblocks elapsed_us now).key = e.key
    ∧ (smgr_stats_writev_update e seq nblocks elapsed_us now).writes
        = (e.writes + 1) % U64
    ∧ (smgr_stats_writev_update e seq nblocks elapsed_us now).write_blocks
        = (e.write_blocks + nblocks) % U64
    ∧ (smgr_stats_writev_update e seq nblocks elapsed_us now).sequential_writes
        = (if seq.is_sequential then (e.sequential_writes + 1) % U64
           else e.sequential_writes)
    ∧ (smgr_stats_writev_update e seq nblocks elapsed_us now).random_writes
        = (if seq.is_sequential then e.random_writes
           else (e.random_writes + 1) % U64)
    ∧ (smgr_stats_writev_update e seq nblocks elapsed_us now).write_runs
        = (if seq.completed_run > 0 then
             smgr_stats_welford_record e.write_runs (seq.completed_run : ℚ)
           else e.write_runs) := by
  unfold smgr_stats_writev_update smgr_stats_update_activity
  cases hs : seq.is_sequential <;>
    by_cases hr : seq.completed_run > 0 <;>
      simp [hs, hr] <;> split_ifs <;> simp

/-- Evaluation of the two-write scenario: a single 4-block write starting a
fresh access history followed by a single 1-block write at a non-contiguous
offset yields writes 2, write_blocks 5, sequential_writes 0,
random_writes 2, and one recorded write run of length 4. -/
lemma writev_two_op_eval (key : SmgrStatsKey) (b d el1 el2 : Nat)
    (t1 t2 : Int) (hd : d ≠ ((b + 3) % U32 + 1) % U32) :
    (smgr_stats_writev_step
        (smgr_stats_writev_step ([], smgr_stats_new_entry key) b 4 el1 t1)
        d 1 el2 t2).2.writes = 2
    ∧ (smgr_stats_writev_step
        (smgr_stats_writev_step ([], smgr_stats_new_entry key) b 4 el1 t1)
        d 1 el2 t2).2.write_blocks = 5
    ∧ (smgr_stats_writev_step
        (smgr_stats_writev_step ([], smgr_stats_new_entry key) b 4 el1 t1)
        d 1 el2 t2).2.sequential_writes = 0
    ∧ (smgr_stats_writev_step
        (smgr_stats_writev_step ([], smgr_stats_new_entry key) b 4 el1 t1)
        d 1 el2 t2).2.random_writes = 2
    ∧ (smgr_stats_writev_step
        (smgr_stats_writev_step ([], smgr_stats_new_entry key) b 4 el1 t1)
        d 1 el2 t2).2.write_runs.count = 1
    ∧ (smgr_stats_writev_step
        (smgr_stats_writev_step ([], smgr_stats_new_entry key) b 4 el1 t1)
        d 1 el2 t2).2.write_runs.mean = 4 := by
  have hlast : (b + 4 + (U32 - 1)) % U32 = (b + 3) % U32 := by
    simp only [U32]
    omega
  have hstep : ∀ (st : SmgrStatsPatternCache × SmgrStatsEntry)
      (bn nb el : Nat) (now : Int),
      smgr_stats_writev_step st bn nb el now
        = ((smgr_stats_check_sequential st.1 st.2.key bn nb false).2,
           smgr_stats_writev_update st.2
             (smgr_stats_check_sequential st.1 st.2.key bn nb false).1
             nb el now) := by
    intro st bn nb el now
    rfl
  have hchk1 : smgr_stats_check_sequential [] key b 4 false
      = (⟨false, 0⟩,
         [(key,
           { last_read_block := invalidBlockNumber
             last_write_block := (b + 4 + (U32 - 1)) % U32
             current_read_run := 0
             current_write_run := 4 })]) := by
    simp [smgr_stats_check_sequential, patternCacheLookup, patternCacheStore,
      freshLocalPattern]
  set pat1 : SmgrStatsLocalPattern :=
    { last_read_block := invalidBlockNumber
      last_write_block := (b + 4 + (U32 - 1)) % U32
      current_read_run := 0
      current_write_run := 4 } with hpat1
  set e1 := smgr_stats_writev_update (smgr_stats_new_entry key) ⟨false, 0⟩
    4 el1 t1 with he1
  obtain ⟨hk1, hw1, hwb1, hsw1, hrw1, hruns1⟩ :=
    writev_update_fields (smgr_stats_new_entry key) ⟨false, 0⟩ 4 el1 t1
  have hk1e : e1.key = key := by
    rw [he1, hk1]
    rfl
  have hseq2 : ¬((b + 4 + (U32 - 1)) % U32 ≠ invalidBlockNumber
      ∧ d = ((b + 4 + (U32 - 1)) % U32 + 1) % U32) := by
    rintro ⟨-, heq⟩
    exact hd (heq.trans (by rw [hlast]))
  have hchk2 : (smgr_stats_check_sequential [(key, pat1)] key d 1 false).1
      = ⟨false, 4⟩ := by
    have hlook : patternCacheLookup [(key, pat1)] key = some pat1 := by
      simp [patternCacheLookup]
    unfold smgr_stats_check_sequential
    dsimp only
    rw [hlook]
    simp only [Option.getD_some, hpat1, Bool.false_eq_true, if_false]
    rw [if_neg hseq2]
  have hfinal : (smgr_stats_writev_step
      (smgr_stats_writev_step ([], smgr_stats_new_entry key) b 4 el1 t1)
      d 1 el2 t2).2
      = smgr_stats_writev_update e1 ⟨false, 4⟩ 1 el2 t2 := by
    simp only [hstep]
    rw [show (smgr_stats_new_entry key).key = key from rfl, hchk1]
    rw [← he1, hk1e, hchk2]
  obtain ⟨hk2, hw2, hwb2, hsw2, hrw2, hruns2⟩ :=
    writev_update_fields e1 ⟨false, 4⟩ 1 el2 t2
  rw [hfinal]
  have hnoseq : ((⟨false, 4⟩ : SmgrStatsSeqResult).is_sequential = true)
      = False := by simp
  refine ⟨?_, ?_, ?_, ?_, ?_, ?_⟩
  · rw [hw2, he1, hw1]
    norm_num [smgr_stats_new_entry, U64]
  · rw [hwb2, he1, hwb1]
    norm_num [smgr_stats_new_entry, U64]
  · rw [hsw2]
    simp only [hnoseq, if_false]
    rw [he1, hsw1]
    simp [smgr_stats_new_entry]
  · rw [hrw2]
    simp only [hnoseq, if_false]
    rw [he1, hrw1]
    norm_num [smgr_stats_new_entry, U64]
  · rw [hruns2]
    simp only [if_pos (by norm_num :
      (SmgrStatsSeqResult.mk false 4).completed_run > 0)]
    rw [he1, hruns1]
    simp only [if_neg (by norm_num :
      ¬(SmgrStatsSeqResult.mk false 0).completed_run > 0)]
    norm_num [smgr_stats_new_entry, smgr_stats_welford_record,
      smgr_stats_welford_reset, U64]
  · rw [hruns2]
    simp only [if_pos (by norm_num :
      (SmgrStatsSeqResult.mk false 4).completed_run > 0)]
    rw [he1, hruns1]
    simp only [if_neg (by norm_num :
      ¬(SmgrStatsSeqResult.mk false 0).completed_run > 0)]
    norm_num [smgr_stats_new_entry, smgr_stats_welford_record,
      smgr_stats_welford_reset, U64]

/-- Counterexample for C1: in the end-to-end two-write scenario (a single
4-block write starting a fresh access history, then a single 1-block write
at a distant offset), the first write is classified random — the detector's
"random (or first access)" branch — so the claimed outcome
sequential_writes = 1 and random_writes = 1 is false: the code produces
sequential_writes = 0 and random_writes = 2. -/
theorem writev_first_run_scenario_cex :
    ¬((smgr_stats_writev_step
          (smgr_stats_writev_step ([], smgr_stats_new_entry exKey)
            0 4 7 1000000)
          100 1 9 2000000).2.writes = 2
      ∧ (smgr_stats_writev_step
          (smgr_stats_writev_step ([], smgr_stats_new_entry exKey)
            0 4 7 1000000)
          100 1 9 2000000).2.write_blocks = 5
      ∧ (smgr_stats_writev_step
          (smgr_stats_writev_step ([], smgr_stats_new_entry exKey)
            0 4 7 1000000)
          100 1 9 2000000).2.sequential_writes = 1
      ∧ (smgr_stats_writev_step
          (smgr_stats_writev_step ([], smgr_stats_new_entry exKey)
            0 4 7 1000000)
          100 1 9 2000000).2.random_writes = 1
      ∧ (smgr_stats_writev_step
          (smgr_stats_writev_step ([], smgr_stats_new_entry exKey)
            0 4 7 1000000)
          100 1 9 2000000).2.write_runs.count = 1
      ∧ (smgr_stats_writev_step
          (smgr_stats_writev_step ([], smgr_stats_new_entry exKey)
            0 4 7 1000000)
          100 1 9 2000000).2.write_runs.mean = 4) := by
  have h := writev_two_op_eval exKey 0 100 7 9 1000000 2000000 (by decide)
  rintro ⟨-, -, hseq, -, -, -⟩
  rw [h.2.2.1] at hseq
  exact absurd hseq (by norm_num)

/-- C1 (amended): in the end-to-end two-write scenario against key K — a
single write of 4 contiguous blocks starting a fresh access history, then a
single write of 1 block at a non-contiguous offset — the resulting entry
has writes = 2, write_blocks = 5, sequential_writes = 0, random_writes = 2
(the first-ever access is classified random by the detector), and its
write-run accumulator has count 1 with recorded value 4. -/
theorem writev_first_run_scenario :
    ∀ (key : SmgrStatsKey) (b d el1 el2 : Nat) (t1 t2 : Int),
      d ≠ ((b + 3) % U32 + 1) % U32 →
      (smgr_stats_writev_step
          (smgr_stats_writev_step ([], smgr_stats_new_entry key) b 4 el1 t1)
          d 1 el2 t2).2.writes = 2
      ∧ (smgr_stats_writev_step
          (smgr_stats_writev_step ([], smgr_stats_new_entry key) b 4 el1 t1)
          d 1 el2 t2).2.write_blocks = 5
      ∧ (smgr_stats_writev_step
          (smgr_stats_writev_step ([], smgr_stats_new_entry key) b 4 el1 t1)
          d 1 el2 t2).2.sequential_writes = 0
      ∧ (smgr_stats_writev_step
          (smgr_stats_writev_step ([], smgr_stats_new_entry key) b 4 el1 t1)
          d 1 el2 t2).2.random_writes = 2
      ∧ (smgr_stats_writev_step
          (smgr_stats_writev_step ([], smgr_stats_new_entry key) b 4 el1 t1)
          d 1 el2 t2).2.write_runs.count = 1
      ∧ (smgr_stats_writev_step
          (smgr_stats_writev_step ([], smgr_stats_new_entry key) b 4 el1 t1)
          d 1 el2 t2).2.write_runs.mean = 4 :=
  fun key b d el1 el2 t1 t2 hd =>
    writev_two_op_eval key b d el1 el2 t1 t2 hd

/-- Witness for C1's amended theorem: the concrete scenario with the first
write at block 0 and the second at the distant block 100. -/
theorem writev_first_run_scenario_witness :
    (100 : Nat) ≠ ((0 + 3) % U32 + 1) % U32
    ∧ (smgr_stats_writev_step
        (smgr_stats_writev_step ([], smgr_stats_new_entry exKey) 0 4 7 1000000)
        100 1 9 2000000).2.writes = 2 :=
  ⟨by decide,
   (writev_first_run_scenario exKey 0 100 7 9 1000000 2000000 (by decide)).1⟩
